import Mathlib

/-!
# Verification of the interaction-pattern layer of the components repository

Shallow embedding of the headless UI pattern classes (`MenuPattern`,
`MenuBarPattern`, `MenuItemPattern`, `MenuTriggerPattern`, `TabListPattern`,
`TabPattern`, `TreeItemPattern`), of `MatDrawerContainer._validateDrawers`,
`MatDrawer.toggle`/`_setOpen`, and of `YouTubeApiLoaderService.load`,
together with theorems settling the behavioural claims about them.

Pure functions of the source are translated into Lean functions; the mutable
signal state of the pattern objects is made explicit as record-passing state.
The `behaviors/` directory (List, ListFocus, ListExpansion,
KeyboardEventManager) is not part of the sources; where one of its members
decides a property it is either taken as a parameter (when the property
quantifies over its outcome) or modelled from the specification text, and
each such definition says so in its doc comment.
-/

namespace Components

/-- Keyboard keys that occur in the key-binding computations of the
pattern classes. -/
inductive Key where
  | arrowLeft
  | arrowRight
  | arrowUp
  | arrowDown
  | home
  | endKey
  | enter
  | escape
  | space
  deriving DecidableEq, Repr

/-- The text direction input (`textDirection: SignalLike<'ltr' | 'rtl'>`). -/
inductive TextDir where
  | ltr
  | rtl
  deriving DecidableEq, Repr

/-- Tablist orientation (`orientation: SignalLike<'vertical' | 'horizontal'>`). -/
inductive TabOrientation where
  | vertical
  | horizontal
  deriving DecidableEq, Repr

/-- `MenuPattern._expandKey`: `textDirection() === 'rtl' ? 'ArrowLeft' : 'ArrowRight'`. -/
def menuExpandKey (d : TextDir) : Key :=
  if d = TextDir.rtl then Key.arrowLeft else Key.arrowRight

/-- `MenuPattern._collapseKey`: `textDirection() === 'rtl' ? 'ArrowRight' : 'ArrowLeft'`. -/
def menuCollapseKey (d : TextDir) : Key :=
  if d = TextDir.rtl then Key.arrowRight else Key.arrowLeft

/-- `MenuBarPattern._nextKey`: `textDirection() === 'rtl' ? 'ArrowLeft' : 'ArrowRight'`. -/
def menuBarNextKey (d : TextDir) : Key :=
  if d = TextDir.rtl then Key.arrowLeft else Key.arrowRight

/-- `MenuBarPattern._previousKey`: `textDirection() === 'rtl' ? 'ArrowRight' : 'ArrowLeft'`. -/
def menuBarPreviousKey (d : TextDir) : Key :=
  if d = TextDir.rtl then Key.arrowRight else Key.arrowLeft

/-- `TabListPattern.prevKey`: `ArrowUp` when vertical, otherwise
`textDirection() === 'rtl' ? 'ArrowRight' : 'ArrowLeft'`. -/
def tabListPrevKey (o : TabOrientation) (d : TextDir) : Key :=
  if o = TabOrientation.vertical then Key.arrowUp
  else if d = TextDir.rtl then Key.arrowRight else Key.arrowLeft

/-- `TabListPattern.nextKey`: `ArrowDown` when vertical, otherwise
`textDirection() === 'rtl' ? 'ArrowLeft' : 'ArrowRight'`. -/
def tabListNextKey (o : TabOrientation) (d : TextDir) : Key :=
  if o = TabOrientation.vertical then Key.arrowDown
  else if d = TextDir.rtl then Key.arrowLeft else Key.arrowRight

/-- C3: the directional arrow keys swap meaning under RTL. In a menu,
expand is ArrowRight and collapse ArrowLeft under `ltr`, and the bindings
are exchanged under `rtl`; the same exchange holds for next/previous in the
menubar and for prev/next in a horizontal tablist. -/
theorem menu_directional_keys_swap_under_rtl :
    (menuExpandKey TextDir.ltr = Key.arrowRight ∧
       menuCollapseKey TextDir.ltr = Key.arrowLeft ∧
       menuExpandKey TextDir.rtl = menuCollapseKey TextDir.ltr ∧
       menuCollapseKey TextDir.rtl = menuExpandKey TextDir.ltr) ∧
    (menuBarNextKey TextDir.ltr = Key.arrowRight ∧
       menuBarPreviousKey TextDir.ltr = Key.arrowLeft ∧
       menuBarNextKey TextDir.rtl = menuBarPreviousKey TextDir.ltr ∧
       menuBarPreviousKey TextDir.rtl = menuBarNextKey TextDir.ltr) ∧
    (tabListPrevKey TabOrientation.horizontal TextDir.ltr = Key.arrowLeft ∧
       tabListNextKey TabOrientation.horizontal TextDir.ltr = Key.arrowRight ∧
       tabListPrevKey TabOrientation.horizontal TextDir.rtl
         = tabListNextKey TabOrientation.horizontal TextDir.ltr ∧
       tabListNextKey TabOrientation.horizontal TextDir.rtl
         = tabListPrevKey TabOrientation.horizontal TextDir.ltr) := by
  decide

/-! ## Tablist (`TabListPattern`, `TabPattern`)

Tabs are identified by natural-number ids. The outcome of
`ListFocus.isFocusable` and of `ListExpansion.open` (whose code lives in the
`behaviors/` directory, outside the sources) is taken as a parameter: the
properties below quantify over those outcomes. `TabPattern.selected()` is
`tablist.selectedTab() === this`, so the selected tab is carried as an
`Option Nat`. -/

/-- The loop body of `TabListPattern.setDefaultState`: iterates over the
items, skipping non-focusable ones, remembering the first focusable one,
and returning early with the first focusable selected tab. `sel` is the
current `selectedTab`, `firstItem` the loop accumulator, `active` the
incoming `activeItem` (returned unchanged when nothing is focusable). -/
def setDefaultStateAux (focusable : Nat → Bool) (sel : Option Nat) :
    List Nat → Option Nat → Option Nat → Option Nat
  | [], firstItem, active =>
      match firstItem with
      | some f => some f
      | none => active
  | t :: rest, firstItem, active =>
      if focusable t then
        let firstItem' := if firstItem = none then some t else firstItem
        if sel = some t then some t
        else setDefaultStateAux focusable sel rest firstItem' active
      else setDefaultStateAux focusable sel rest firstItem active

/-- `TabListPattern.setDefaultState`, as the new `activeItem` it produces. -/
def tabListSetDefaultState (focusable : Nat → Bool) (items : List Nat)
    (sel active : Option Nat) : Option Nat :=
  setDefaultStateAux focusable sel items none active

/-- The argument of the overloaded `TabListPattern.open`:
a value string, an explicit tab, or no argument. -/
inductive TabArg where
  | byValue (s : String)
  | byTab (t : Nat)
  | noArg
  deriving DecidableEq

/-- Tab resolution at the head of `TabListPattern.open`:
`tab ??= this.activeTab()` followed by
`if (typeof tab === 'string') tab = items().find(t => t.value() === tab)`. -/
def tabListResolve (items : List Nat) (value : Nat → String) (active : Option Nat) :
    TabArg → Option Nat
  | TabArg.noArg => active
  | TabArg.byTab t => some t
  | TabArg.byValue s => items.find? (fun t => value t == s)

/-- `TabListPattern.open`: resolves the tab, returns `false` when none is
resolved, otherwise queries `expansionBehavior.open` (parameter `expOpen`)
and sets `selectedTab` exactly when it succeeded. The result is the returned
boolean paired with the new `selectedTab`. -/
def tabListOpen (items : List Nat) (value : Nat → String) (expOpen : Nat → Bool)
    (active selected : Option Nat) (arg : TabArg) : Bool × Option Nat :=
  match tabListResolve items value active arg with
  | none => (false, selected)
  | some t =>
      let success := expOpen t
      (success, if success then some t else selected)

/-- `setDefaultStateAux` returns the selected tab as soon as a focusable
selected tab occurs in the remaining items, whatever the accumulators are. -/
theorem setDefaultStateAux_selected (focusable : Nat → Bool) (s : Nat) :
    ∀ (items : List Nat) (firstItem active : Option Nat),
      s ∈ items → focusable s = true →
      setDefaultStateAux focusable (some s) items firstItem active = some s := by
  intro items
  induction items with
  | nil => intro _ _ h; exact absurd h (List.not_mem_nil s)
  | cons t rest ih =>
      intro firstItem active hmem hfoc
      by_cases hts : t = s
      · subst hts
        simp [setDefaultStateAux, hfoc]
      · rcases List.mem_cons.mp hmem with h | h
        · exact absurd h.symm hts
        · by_cases hft : focusable t = true
          · have hne : (some s : Option Nat) ≠ some t := by
              intro hc
              exact hts (Option.some.inj hc).symm
            simp only [setDefaultStateAux, hft, if_true, if_neg hne]
            exact ih _ _ h hfoc
          · simp only [setDefaultStateAux, Bool.not_eq_true] at hft ⊢
            rw [hft]
            simp only [Bool.false_eq_true, if_false]
            exact ih _ _ h hfoc

/-- When no focusable selected tab remains, `setDefaultStateAux` falls back
to the already-found first focusable item, or to the first focusable item of
the rest, or to the unchanged `activeItem`. -/
theorem setDefaultStateAux_no_selected (focusable : Nat → Bool) (sel : Option Nat) :
    ∀ (items : List Nat) (firstItem active : Option Nat),
      (∀ s, sel = some s → s ∈ items → focusable s = false) →
      setDefaultStateAux focusable sel items firstItem active =
        match firstItem with
        | some f => some f
        | none =>
            match items.find? (fun t => focusable t) with
            | some f => some f
            | none => active := by
  intro items
  induction items with
  | nil => intro firstItem active _; cases firstItem <;> simp [setDefaultStateAux, List.find?]
  | cons t rest ih =>
      intro firstItem active h
      by_cases hft : focusable t = true
      · have hst : sel ≠ some t := by
          intro hc
          have := h t hc (List.mem_cons_self t rest)
          rw [hft] at this
          exact Bool.true_eq_false.mp this
        have hrest : ∀ s, sel = some s → s ∈ rest → focusable s = false := by
          intro s hs hmem
          exact h s hs (List.mem_cons_of_mem t hmem)
        cases firstItem with
        | some f =>
            simp only [setDefaultStateAux, hft, if_true, if_neg hst]
            have : (some f : Option Nat) = none ↔ False := by simp
            rw [ih (if (some f : Option Nat) = none then some t else some f) active hrest]
            simp
        | none =>
            simp only [setDefaultStateAux, hft, if_true, if_neg hst]
            rw [ih (some t) active hrest]
            simp [List.find?, hft]
      · have hf : focusable t = false := by
          cases hb : focusable t with
          | true => exact absurd hb hft
          | false => rfl
        have hrest : ∀ s, sel = some s → s ∈ rest → focusable s = false := by
          intro s hs hmem
          exact h s hs (List.mem_cons_of_mem t hmem)
        simp only [setDefaultStateAux, hf, Bool.false_eq_true, if_false]
        rw [ih firstItem active hrest]
        cases firstItem <;> simp [List.find?, hf]

/-- C8: `TabListPattern.setDefaultState` sets the active item to the first
focusable tab that is selected when such a tab exists, otherwise to the
first focusable tab; when no tab in the list is focusable, the active item
is left unchanged. (`selectedTab` is a single optional tab, so "the first
focusable selected tab" is the selected tab whenever it is focusable and in
the list.) -/
theorem tabList_setDefaultState_correct (focusable : Nat → Bool) (items : List Nat)
    (sel active : Option Nat) :
    (∀ s, sel = some s → s ∈ items → focusable s = true →
        tabListSetDefaultState focusable items sel active = some s) ∧
    ((∀ s, sel = some s → s ∈ items → focusable s = false) →
        tabListSetDefaultState focusable items sel active =
          match items.find? (fun t => focusable t) with
          | some f => some f
          | none => active) := by
  constructor
  · intro s hs hmem hfoc
    subst hs
    exact setDefaultStateAux_selected focusable s items none active hmem hfoc
  · intro h
    exact setDefaultStateAux_no_selected focusable sel items none active h

/-- Witness for C8: with tabs `[0, 1, 2]`, tab `0` not focusable, no
selected tab, the default active item becomes the first focusable tab `1`;
applied again with tab `2` selected and focusable, it becomes `2`. -/
theorem tabList_setDefaultState_correct_witness :
    tabListSetDefaultState (fun t => decide (0 < t)) [0, 1, 2] none none = some 1 ∧
    tabListSetDefaultState (fun t => decide (0 < t)) [0, 1, 2] (some 2) none = some 2 := by
  constructor
  · have h := (tabList_setDefaultState_correct (fun t => decide (0 < t)) [0, 1, 2]
      none none).2 (fun s hs _ => absurd hs (by simp))
    simpa using h
  · exact (tabList_setDefaultState_correct (fun t => decide (0 < t)) [0, 1, 2]
      (some 2) none).1 2 rfl (by decide) (by decide)

/-- C9: `TabListPattern.open` returns `false` and leaves `selectedTab`
unchanged whenever no tab can be resolved (a string matching no tab's value,
or no argument while no tab is active); when a tab is resolved, the new
`selectedTab` is that tab exactly when the expansion behavior's `open`
returned `true`, it is the old one otherwise, and the method returns that
same boolean. -/
theorem tabList_open_correct (items : List Nat) (value : Nat → String)
    (expOpen : Nat → Bool) (active selected : Option Nat) (arg : TabArg) :
    (tabListResolve items value active arg = none →
        tabListOpen items value expOpen active selected arg = (false, selected)) ∧
    (∀ t, tabListResolve items value active arg = some t →
        tabListOpen items value expOpen active selected arg
          = (expOpen t, if expOpen t then some t else selected)) ∧
    (∀ s, items.find? (fun t => value t == s) = none →
        tabListOpen items value expOpen active selected (TabArg.byValue s)
          = (false, selected)) ∧
    (active = none →
        tabListOpen items value expOpen active selected TabArg.noArg
          = (false, selected)) := by
  refine ⟨?_, ?_, ?_, ?_⟩
  · intro h
    simp [tabListOpen, h]
  · intro t h
    simp [tabListOpen, h]
  · intro s h
    simp [tabListOpen, tabListResolve, h]
  · intro h
    simp [tabListOpen, tabListResolve, h]

/-- Witness for C9: with a single tab `7` of value `"a"`, opening by the
unmatched value `"b"` fails and leaves the selection unchanged; opening
tab `7` with an expansion behavior that accepts sets the selection to `7`
and returns `true`. -/
theorem tabList_open_correct_witness :
    tabListOpen [7] (fun _ => "a") (fun _ => true) none (some 7) (TabArg.byValue "b")
      = (false, some 7) ∧
    tabListOpen [7] (fun _ => "a") (fun _ => true) none none (TabArg.byTab 7)
      = (true, some 7) := by
  constructor
  · exact (tabList_open_correct [7] (fun _ => "a") (fun _ => true) none (some 7)
      (TabArg.byValue "b")).2.2.1 "b" (by decide)
  · have h := (tabList_open_correct [7] (fun _ => "a") (fun _ => true) none none
      (TabArg.byTab 7)).2.1 7 rfl
    simpa using h

/-! ## Drawer container validation (`MatDrawerContainer._validateDrawers`,
`throwMatDuplicatedDrawerError`) -/

/-- `MatDrawer.position`: `'start' | 'end'`. -/
inductive DrawerPos where
  | start
  | endPos
  deriving DecidableEq, Repr

/-- The attribute string of a drawer position. -/
def posName : DrawerPos → String
  | DrawerPos.start => "start"
  | DrawerPos.endPos => "end"

/-- `throwMatDuplicatedDrawerError`: the message of the thrown `Error`. -/
def duplicatedDrawerMsg (position : String) : String :=
  "A drawer was already declared for 'position=\"" ++ position ++ "\"'"

/-- The `forEach` body of `MatDrawerContainer._validateDrawers`: walks the
drawers, keeping whether a `start`/`end` drawer has been seen (`_start`,
`_end`), and throws `throwMatDuplicatedDrawerError` on a second occurrence
when `ngDevMode` is on. The thrown error is an `Except.error`. -/
def validateDrawersAux (devMode : Bool) :
    List DrawerPos → Bool → Bool → Except String Unit
  | [], _, _ => Except.ok ()
  | p :: rest, hasStart, hasEnd =>
      match p with
      | DrawerPos.endPos =>
          if hasEnd && devMode then Except.error (duplicatedDrawerMsg "end")
          else validateDrawersAux devMode rest hasStart true
      | DrawerPos.start =>
          if hasStart && devMode then Except.error (duplicatedDrawerMsg "start")
          else validateDrawersAux devMode rest true hasEnd

/-- `MatDrawerContainer._validateDrawers` (restricted to its throwing part;
the `_left`/`_right` assignment does not affect whether an error is thrown). -/
def validateDrawers (devMode : Bool) (ds : List DrawerPos) : Except String Unit :=
  validateDrawersAux devMode ds false false

/-- `Bool.toNat` of the seen-flags, for count bookkeeping. -/
def flagCount (b : Bool) : Nat := if b then 1 else 0

/-- Dichotomy for the validation walk in dev mode: it either succeeds, all
position counts (including the incoming flags) being at most one, or fails
with the message of a position occurring at least twice. -/
theorem validateDrawersAux_dichotomy :
    ∀ (ds : List DrawerPos) (hs he : Bool),
      (validateDrawersAux true ds hs he = Except.ok () ∧
        ds.count DrawerPos.start + flagCount hs ≤ 1 ∧
        ds.count DrawerPos.endPos + flagCount he ≤ 1) ∨
      (∃ q, validateDrawersAux true ds hs he
              = Except.error (duplicatedDrawerMsg (posName q)) ∧
          2 ≤ ds.count q + flagCount (match q with
            | DrawerPos.start => hs
            | DrawerPos.endPos => he)) := by
  intro ds
  induction ds with
  | nil =>
      intro hs he
      left
      refine ⟨rfl, ?_, ?_⟩ <;> cases hs <;> cases he <;> simp [flagCount]
  | cons p rest ih =>
      intro hs he
      cases p with
      | start =>
          cases hs with
          | true =>
              right
              refine ⟨DrawerPos.start, ?_, ?_⟩
              · simp [validateDrawersAux, posName]
              · simp [List.count_cons, flagCount]
          | false =>
              have h := ih true he
              rcases h with ⟨hok, hcs, hce⟩ | ⟨q, herr, hcnt⟩
              · left
                refine ⟨?_, ?_, ?_⟩
                · simpa [validateDrawersAux] using hok
                · simpa [List.count_cons, flagCount] using hcs
                · simpa [List.count_cons, flagCount] using hce
              · right
                refine ⟨q, ?_, ?_⟩
                · simpa [validateDrawersAux] using herr
                · cases q <;>
                    simpa [List.count_cons, flagCount] using hcnt
      | endPos =>
          cases he with
          | true =>
              right
              refine ⟨DrawerPos.endPos, ?_, ?_⟩
              · simp [validateDrawersAux, posName]
              · simp [List.count_cons, flagCount]
          | false =>
              have h := ih hs true
              rcases h with ⟨hok, hcs, hce⟩ | ⟨q, herr, hcnt⟩
              · left
                refine ⟨?_, ?_, ?_⟩
                · simpa [validateDrawersAux] using hok
                · simpa [List.count_cons, flagCount] using hcs
                · simpa [List.count_cons, flagCount] using hce
              · right
                refine ⟨q, ?_, ?_⟩
                · simpa [validateDrawersAux] using herr
                · cases q <;>
                    simpa [List.count_cons, flagCount] using hcnt

/-- C6: in dev mode, validating a drawer list with two drawers of the same
position throws an `Error` whose message names a duplicated position, and
validating a list whose positions are all distinct throws nothing. -/
theorem drawer_duplicate_position_error (ds : List DrawerPos) :
    (∀ p, 2 ≤ ds.count p →
        ∃ q, 2 ≤ ds.count q ∧
          validateDrawers true ds = Except.error (duplicatedDrawerMsg (posName q))) ∧
    (ds.count DrawerPos.start ≤ 1 → ds.count DrawerPos.endPos ≤ 1 →
        validateDrawers true ds = Except.ok ()) := by
  have h := validateDrawersAux_dichotomy ds false false
  constructor
  · intro p hp
    rcases h with ⟨_, hcs, hce⟩ | ⟨q, herr, hcnt⟩
    · exfalso
      cases p with
      | start => simp [flagCount] at hcs; omega
      | endPos => simp [flagCount] at hce; omega
    · refine ⟨q, ?_, herr⟩
      cases q <;> simpa [flagCount] using hcnt
  · intro hs he
    rcases h with ⟨hok, _, _⟩ | ⟨q, herr, hcnt⟩
    · exact hok
    · exfalso
      cases q with
      | start => simp [flagCount] at hcnt; omega
      | endPos => simp [flagCount] at hcnt; omega

/-- Witness for C6: two `end` drawers produce the error naming `end`; one
`start` plus one `end` drawer validates without error. -/
theorem drawer_duplicate_position_error_witness :
    validateDrawers true [DrawerPos.endPos, DrawerPos.endPos]
      = Except.error (duplicatedDrawerMsg "end") ∧
    validateDrawers true [DrawerPos.start, DrawerPos.endPos] = Except.ok () := by
  constructor
  · obtain ⟨q, _, herr⟩ := (drawer_duplicate_position_error
      [DrawerPos.endPos, DrawerPos.endPos]).1 DrawerPos.endPos (by decide)
    cases q with
    | start =>
        rw [show validateDrawers true [DrawerPos.endPos, DrawerPos.endPos]
            = Except.error (duplicatedDrawerMsg "end") from rfl] at herr
        simp only [Except.error.injEq] at herr
        exact absurd herr (by decide)
    | endPos => simpa [posName] using herr
  · exact (drawer_duplicate_position_error
      [DrawerPos.start, DrawerPos.endPos]).2 (by decide) (by decide)

/-! ## YouTube API loader (`YouTubeApiLoaderService.load`)

The `loading$` field is a `ReplaySubject<void>(1)`. Its rxjs semantics:
`next`/`complete`/`error` on a terminated subject are ignored, and a (late)
subscriber of a terminated subject receives the buffered emissions (at most
one, buffer size 1) followed by the terminal event. -/

/-- A `ReplaySubject<void>(1)`: the number of accepted `next` calls and the
terminal event (`none` = live, `some none` = completed,
`some (some m)` = errored with message `m`). -/
structure Subj where
  nexts : Nat
  terminal : Option (Option String)
  deriving DecidableEq, Repr

/-- `subject.next()`: ignored once terminated. -/
def Subj.next (s : Subj) : Subj :=
  if s.terminal = none then { s with nexts := s.nexts + 1 } else s

/-- `subject.complete()`: ignored once terminated. -/
def Subj.complete (s : Subj) : Subj :=
  if s.terminal = none then { s with terminal := some none } else s

/-- `subject.error(m)`: ignored once terminated. -/
def Subj.error (m : String) (s : Subj) : Subj :=
  if s.terminal = none then { s with terminal := some (some m) } else s

/-- How many values a subscriber of the subject receives (replay buffer 1). -/
def Subj.replayEmissions (s : Subj) : Nat := min s.nexts 1

/-- The mutable state of `YouTubeApiLoaderService` together with the number
of scripts injected into the document so far. -/
structure LoaderState where
  loaded : Bool
  subj : Subj
  scripts : Nat
  deriving DecidableEq, Repr

/-- The service state at construction: `loaded = false`, fresh subject. -/
def loaderInit : LoaderState :=
  { loaded := false, subj := { nexts := 0, terminal := none }, scripts := 0 }

/-- `load()`: when `loaded` it returns `loading$` at once; otherwise it
creates and appends a script element (and again returns `loading$`). The
returned observable is always the same `loading$` subject, so only the
script injection is recorded. -/
def loadCall (st : LoaderState) : LoaderState :=
  if st.loaded then st else { st with scripts := st.scripts + 1 }

/-- `script.onload`: `loaded = true; loading$.next(); loading$.complete()`. -/
def handleScriptLoad (st : LoaderState) : LoaderState :=
  { st with loaded := true, subj := Subj.complete (Subj.next st.subj) }

/-- `script.onerror`:
`loaded = false; loading$.error('Failed to load YouTube API')`. -/
def handleScriptError (st : LoaderState) : LoaderState :=
  { st with loaded := false, subj := Subj.error "Failed to load YouTube API" st.subj }

/-- C5: the loader surfaces script-load failure on the observable's error
channel and nothing else: the subject errors (with
`'Failed to load YouTube API'`) exactly at a script-load failure — neither
a `load()` call nor a script load can put it in error; on a script load it
emits once and completes; after a successful load (`loaded = true`) a
subsequent `load()` call changes nothing (same already-completed observable,
no new script); and the errored observable is absorbing, so no later event
recovers or retries it. -/
theorem youtube_loader_error_channel (st : LoaderState) :
    (st.subj.terminal = none →
        (handleScriptError st).subj.terminal
          = some (some "Failed to load YouTube API")) ∧
    (∀ m, (loadCall st).subj.terminal = some (some m) ↔
        st.subj.terminal = some (some m)) ∧
    (∀ m, (handleScriptLoad st).subj.terminal = some (some m) ↔
        st.subj.terminal = some (some m)) ∧
    (st.subj = { nexts := 0, terminal := none } →
        (handleScriptLoad st).loaded = true ∧
        (handleScriptLoad st).subj.terminal = some none ∧
        (handleScriptLoad st).subj.replayEmissions = 1) ∧
    (st.loaded = true → loadCall st = st) ∧
    (∀ m, st.subj.terminal = some (some m) →
        (loadCall st).subj = st.subj ∧
        (handleScriptLoad st).subj = st.subj ∧
        (handleScriptError st).subj = st.subj) := by
  refine ⟨?_, ?_, ?_, ?_, ?_, ?_⟩
  · intro h
    simp [handleScriptError, Subj.error, h]
  · intro m
    by_cases h : st.loaded <;> simp [loadCall, h]
  · intro m
    rcases hterm : st.subj.terminal with _ | t
    · simp [handleScriptLoad, Subj.complete, Subj.next, hterm]
    · simp [handleScriptLoad, Subj.complete, Subj.next, hterm]
  · intro h
    refine ⟨rfl, ?_, ?_⟩ <;> simp [handleScriptLoad, Subj.complete, Subj.next,
      Subj.replayEmissions, h]
  · intro h
    simp [loadCall, h]
  · intro m h
    refine ⟨?_, ?_, ?_⟩
    · by_cases hl : st.loaded <;> simp [loadCall, hl]
    · simp [handleScriptLoad, Subj.complete, Subj.next, h]
    · simp [Subj.error, handleScriptError, h]

/-- Witness for C5: from the freshly constructed service, a failed script
load errors the observable with the documented message, and a successful
one completes it with a single emission. -/
theorem youtube_loader_error_channel_witness :
    (handleScriptError (loadCall loaderInit)).subj.terminal
      = some (some "Failed to load YouTube API") ∧
    (handleScriptLoad (loadCall loaderInit)).subj.terminal = some none ∧
    (handleScriptLoad (loadCall loaderInit)).subj.replayEmissions = 1 := by
  refine ⟨?_, ?_, ?_⟩
  · exact (youtube_loader_error_channel (loadCall loaderInit)).1 rfl
  · exact ((youtube_loader_error_channel (loadCall loaderInit)).2.2.2.1 rfl).2.1
  · exact ((youtube_loader_error_channel (loadCall loaderInit)).2.2.2.1 rfl).2.2

/-! ## Drawer open/close (`MatDrawer.toggle`, `MatDrawer._setOpen`)

State observable by the claim: the `_opened` signal, the number of animation
events scheduled (`_setIsAnimating` / the `setTimeout` emitting
`_animationStarted`/`_animationEnd`), the number of focus restorations
(`_restoreFocus`), plus the internal `_openedVia` bookkeeping.
`_isFocusWithinDrawer()` reads the DOM and is a parameter. The returned
promise is `some r` when `_setOpen` resolves it immediately and `none` when
it is deferred to the next `openedChange` emission. -/

/-- `FocusOrigin` of the cdk a11y package. -/
inductive FocusOrigin where
  | mouse
  | keyboard
  | touch
  | program
  deriving DecidableEq, Repr

/-- `MatDrawerToggleResult`: `'open' | 'close'`. -/
inductive ToggleResult where
  | openR
  | closeR
  deriving DecidableEq, Repr

/-- The drawer state observable by the idempotence claim. -/
structure DrawerState where
  opened : Bool
  openedVia : Option FocusOrigin
  animationEvents : Nat
  focusOps : Nat
  deriving DecidableEq, Repr

/-- `MatDrawer._setOpen(isOpen, restoreFocus, focusOrigin)`: early-returns a
resolved promise when `isOpen === this.opened`; otherwise flips `_opened`,
schedules the animation events, restores focus when closing with
`restoreFocus`, and defers the promise to the next `openedChange`. -/
def setOpen (isOpen restoreFocus : Bool) (st : DrawerState) :
    DrawerState × Option ToggleResult :=
  if isOpen = st.opened then
    (st, some (if isOpen then ToggleResult.openR else ToggleResult.closeR))
  else
    let st1 := { st with
      opened := isOpen,
      animationEvents := st.animationEvents + 1 }
    let st2 :=
      if !isOpen && restoreFocus then { st1 with focusOps := st1.focusOps + 1 } else st1
    (st2, none)

/-- `MatDrawer.toggle(isOpen = !this.opened, openedVia?)`: records
`_openedVia` when opening with an origin, calls `_setOpen` with
`restoreFocus = !isOpen && this._isFocusWithinDrawer()`, and clears
`_openedVia` when closing. -/
def toggle (isOpenArg : Option Bool) (openedVia : Option FocusOrigin)
    (focusWithin : Bool) (st : DrawerState) : DrawerState × Option ToggleResult :=
  let isOpen := isOpenArg.getD (!st.opened)
  let st1 :=
    if isOpen && openedVia.isSome then { st with openedVia := openedVia } else st
  let r := setOpen isOpen (!isOpen && focusWithin) st1
  let st2 := if !isOpen then { r.1 with openedVia := none } else r.1
  (st2, r.2)

/-- `MatDrawer.open(openedVia?)`: `this.toggle(true, openedVia)`. -/
def drawerOpen (openedVia : Option FocusOrigin) (focusWithin : Bool)
    (st : DrawerState) : DrawerState × Option ToggleResult :=
  toggle (some true) openedVia focusWithin st

/-- `MatDrawer.close()`: `this.toggle(false)`. -/
def drawerClose (focusWithin : Bool) (st : DrawerState) :
    DrawerState × Option ToggleResult :=
  toggle (some false) none focusWithin st

/-- C10: toggling a drawer to its current opened state is idempotent: the
promise resolves immediately to `'open'`/`'close'` matching the state, and
no observable drawer state changes — `opened` is untouched, no animation
event is scheduled, no focus movement happens. (`_openedVia`, pure
bookkeeping consumed only by later focus restoration, is the one field the
early return does not protect.) `open` and `close` are the corresponding
`toggle` instances. -/
theorem drawer_toggle_idempotent (st : DrawerState) (openedVia : Option FocusOrigin)
    (focusWithin : Bool) (b : Bool) :
    (st.opened = b →
        (toggle (some b) openedVia focusWithin st).2
            = some (if b then ToggleResult.openR else ToggleResult.closeR) ∧
          ((toggle (some b) openedVia focusWithin st).1.opened = st.opened ∧
           (toggle (some b) openedVia focusWithin st).1.animationEvents
              = st.animationEvents ∧
           (toggle (some b) openedVia focusWithin st).1.focusOps = st.focusOps)) ∧
    drawerOpen openedVia focusWithin st = toggle (some true) openedVia focusWithin st ∧
    drawerClose focusWithin st = toggle (some false) none focusWithin st := by
  refine ⟨?_, rfl, rfl⟩
  intro h
  cases b with
  | true =>
      by_cases hv : openedVia.isSome <;>
        simp [toggle, setOpen, h, hv]
  | false =>
      simp [toggle, setOpen, h]

/-- Witness for C10: closing an already-closed drawer resolves to `'close'`
and changes none of the observable fields. -/
theorem drawer_toggle_idempotent_witness :
    (toggle (some false) none true
        { opened := false, openedVia := none, animationEvents := 0, focusOps := 0 }).2
      = some ToggleResult.closeR ∧
    (toggle (some false) none true
        { opened := false, openedVia := none, animationEvents := 0, focusOps := 0 }).1.opened
      = false := by
  have h := (drawer_toggle_idempotent
    { opened := false, openedVia := none, animationEvents := 0, focusOps := 0 }
    none true false).1 rfl
  exact ⟨h.1, h.2.1⟩

/-! ## Menu expansion state and the close cascades
(`MenuItemPattern.close`, `MenuTriggerPattern.close`, `MenuPattern.closeAll`)

Menu items are natural-number ids. The static structure of the submenu tree
is a function `children : Nat → List Nat` giving the items of the submenu of
an item (empty for an item without submenu), together with
`parent : Nat → Nat` giving the item owning the menu an item sits in (the
source reads it as `menuitem.inputs.parent()`; the well-formedness
hypothesis `c ∈ children i → parent c = i` ties the two). The submenu owned
by item `i` is itself indexed by `i`, so a menu's hover timers live at the
index of its owning item. The mutable signals are a store over ids. Focus
bookkeeping (`unfocus`, `refocus`) touches neither expansion nor timers and
is not part of the store. -/

/-- The mutable menu signals the claims observe: the `_expanded` flag of
every item, and, per submenu (indexed by its owning item), whether an
`_openTimeout` or `_closeTimeout` is pending. -/
structure MenuStore where
  expanded : Nat → Bool
  openT : Nat → Bool
  closeT : Nat → Bool

/-- `Array.prototype.pop` on a worklist: the list without its last element,
and that last element. -/
def popLast {α : Type} : List α → Option (List α × α)
  | [] => none
  | [a] => some ([], a)
  | a :: b :: rest =>
      match popLast (b :: rest) with
      | some (front, last) => some (a :: front, last)
      | none => none

/-- An item `j` is reachable from `i` through submenu containment. -/
inductive Reach (children : Nat → List Nat) : Nat → Nat → Prop
  | refl (i : Nat) : Reach children i i
  | step {i c j : Nat} : c ∈ children i → Reach children c j →
      Reach children i j

/-- The `while (menuitems.length)` loop of `MenuItemPattern.close`: pop the
last worklist item, clear its `_expanded` flag, append its submenu's items,
and clear the timeouts of its parent menu (every popped item's parent is a
`MenuPattern` here, so the `instanceof` guard passes). Runs on fuel; the
returned worklist is empty exactly when the loop ran to completion. -/
def itemCloseLoop (children : Nat → List Nat) (parent : Nat → Nat) :
    Nat → MenuStore → List Nat → MenuStore × List Nat
  | 0, st, wl => (st, wl)
  | Nat.succ fuel, st, wl =>
      match popLast wl with
      | none => (st, [])
      | some (front, j) =>
          let st1 : MenuStore :=
            { expanded := Function.update st.expanded j false,
              openT := Function.update st.openT (parent j) false,
              closeT := Function.update st.closeT (parent j) false }
          itemCloseLoop children parent fuel st1 (front ++ children j)

/-- The `while (menuitems.length)` loop of `MenuTriggerPattern.close`: the
same walk, but clearing only `_expanded` (this loop clears no timeouts). -/
def triggerCloseLoop (children : Nat → List Nat) :
    Nat → MenuStore → List Nat → MenuStore × List Nat
  | 0, st, wl => (st, wl)
  | Nat.succ fuel, st, wl =>
      match popLast wl with
      | none => (st, [])
      | some (front, j) =>
          let st1 : MenuStore := { st with expanded := Function.update st.expanded j false }
          triggerCloseLoop children fuel st1 (front ++ children j)

/-- `MenuItemPattern.close` on item `i` (refocus elided): clears `i`'s own
`_expanded` flag, then runs the worklist loop on its submenu's items. -/
def menuItemClose (children : Nat → List Nat) (parent : Nat → Nat) (fuel : Nat)
    (i : Nat) (st : MenuStore) : MenuStore × List Nat :=
  itemCloseLoop children parent fuel
    { st with expanded := Function.update st.expanded i false } (children i)

/-- `MenuTriggerPattern.close` (refocus elided): collapses the trigger's
`expanded` signal and runs the trigger's worklist loop over the items of its
menu. The first component is the new trigger `expanded` value. -/
def menuTriggerClose (children : Nat → List Nat) (fuel : Nat)
    (topItems : List Nat) (st : MenuStore) : Bool × (MenuStore × List Nat) :=
  (false, triggerCloseLoop children fuel st topItems)

/-- The three shapes `MenuPattern.root` can take. -/
inductive MenuRoot where
  | trigger
  | menubar
  | menu
  deriving DecidableEq, Repr

/-- `MenuPattern.closeAll`: dispatch on the root. A trigger root runs
`MenuTriggerPattern.close`; a menubar root runs `MenuBarPattern.close`,
which is `activeItem?.close(...)`; a plain menu root runs
`activeItem?.close(...)` directly. `topItems` are the items of the trigger's
menu, `active` the root's active item, `trigExp` the trigger's `expanded`
signal (returned unchanged for non-trigger roots). -/
def closeAll (children : Nat → List Nat) (parent : Nat → Nat) (root : MenuRoot)
    (topItems : List Nat) (active : Option Nat) (fuel : Nat) (trigExp : Bool)
    (st : MenuStore) : Bool × (MenuStore × List Nat) :=
  match root with
  | MenuRoot.trigger => menuTriggerClose children fuel topItems st
  | MenuRoot.menubar =>
      match active with
      | none => (trigExp, (st, []))
      | some i => (trigExp, menuItemClose children parent fuel i st)
  | MenuRoot.menu =>
      match active with
      | none => (trigExp, (st, []))
      | some i => (trigExp, menuItemClose children parent fuel i st)

theorem popLast_eq_none {α : Type} (l : List α) : popLast l = none ↔ l = [] := by
  cases l with
  | nil => simp [popLast]
  | cons a rest =>
      cases rest with
      | nil => simp [popLast]
      | cons b rest' =>
          constructor
          · intro h
            exfalso
            rw [popLast] at h
            rcases h2 : popLast (b :: rest') with _ | p
            · have : b :: rest' = [] := (popLast_eq_none (b :: rest')).mp h2
              exact absurd this (by simp)
            · rw [h2] at h
              exact absurd h (by simp)
          · intro h
            exact absurd h (by simp)

theorem popLast_decomp {α : Type} :
    ∀ (l front : List α) (a : α), popLast l = some (front, a) → l = front ++ [a] := by
  intro l
  induction l with
  | nil => intro front a h; exact absurd h (by simp [popLast])
  | cons x rest ih =>
      intro front a h
      cases rest with
      | nil =>
          simp only [popLast, Option.some.injEq, Prod.mk.injEq] at h
          obtain ⟨hf, ha⟩ := h
          subst hf
          subst ha
          rfl
      | cons b rest' =>
          rw [popLast] at h
          rcases h2 : popLast (b :: rest') with _ | p
          · rw [h2] at h
            exact absurd h (by simp)
          · rw [h2] at h
            obtain ⟨front', a'⟩ := p
            simp only [Option.some.injEq, Prod.mk.injEq] at h
            obtain ⟨hf, ha⟩ := h
            have hd := ih front' a' h2
            rw [hd, ← hf, ← ha]
            rfl

/-- Reachability extends along one more submenu containment step. -/
theorem Reach.snoc {children : Nat → List Nat} {i j c : Nat}
    (h : Reach children i j) (hc : c ∈ children j) : Reach children i c := by
  induction h with
  | refl i => exact Reach.step hc (Reach.refl c)
  | step hm _ ih => exact Reach.step hm (ih hc)

/-- The item-close loop only ever writes `false`: cleared flags stay cleared. -/
theorem itemCloseLoop_mono (children : Nat → List Nat) (parent : Nat → Nat) :
    ∀ (fuel : Nat) (st : MenuStore) (wl : List Nat) (j : Nat),
      (st.expanded j = false →
          ((itemCloseLoop children parent fuel st wl).1).expanded j = false) ∧
      (st.openT j = false →
          ((itemCloseLoop children parent fuel st wl).1).openT j = false) ∧
      (st.closeT j = false →
          ((itemCloseLoop children parent fuel st wl).1).closeT j = false) := by
  intro fuel
  induction fuel with
  | zero => intro st wl j; exact ⟨id, id, id⟩
  | succ fuel ih =>
      intro st wl j
      rcases hp : popLast wl with _ | ⟨front, j0⟩
      · simp only [itemCloseLoop, hp]
        exact ⟨id, id, id⟩
      · simp only [itemCloseLoop, hp]
        refine ⟨fun h => (ih _ _ j).1 ?_, fun h => (ih _ _ j).2.1 ?_,
          fun h => (ih _ _ j).2.2 ?_⟩ <;>
          simp [Function.update_apply, h]

/-- The trigger-close loop only ever writes `false` to `expanded`. -/
theorem triggerCloseLoop_mono (children : Nat → List Nat) :
    ∀ (fuel : Nat) (st : MenuStore) (wl : List Nat) (j : Nat),
      st.expanded j = false →
      ((triggerCloseLoop children fuel st wl).1).expanded j = false := by
  intro fuel
  induction fuel with
  | zero => intro st wl j h; exact h
  | succ fuel ih =>
      intro st wl j h
      rcases hp : popLast wl with _ | ⟨front, j0⟩
      · simpa only [triggerCloseLoop, hp] using h
      · simp only [triggerCloseLoop, hp]
        exact ih _ _ j (by simp [Function.update_apply, h])

/-- When the item-close loop runs to completion, every item reachable from
the worklist has been collapsed, and the timeouts of its parent menu have
been cleared. -/
theorem itemCloseLoop_complete (children : Nat → List Nat) (parent : Nat → Nat) :
    ∀ (fuel : Nat) (st : MenuStore) (wl : List Nat),
      (itemCloseLoop children parent fuel st wl).2 = [] →
      ∀ i ∈ wl, ∀ j, Reach children i j →
        ((itemCloseLoop children parent fuel st wl).1).expanded j = false ∧
        ((itemCloseLoop children parent fuel st wl).1).openT (parent j) = false ∧
        ((itemCloseLoop children parent fuel st wl).1).closeT (parent j) = false := by
  intro fuel
  induction fuel with
  | zero =>
      intro st wl hdone i hi j hreach
      exact absurd (hdone ▸ hi) (List.not_mem_nil i)
  | succ fuel ih =>
      intro st wl hdone i hi j hreach
      rcases hp : popLast wl with _ | ⟨front, j0⟩
      · rw [(popLast_eq_none wl).mp hp] at hi
        exact absurd hi (List.not_mem_nil i)
      · have hwl := popLast_decomp wl front j0 hp
        simp only [itemCloseLoop, hp] at hdone ⊢
        rw [hwl] at hi
        rcases List.mem_append.mp hi with hfr | hlast
        · exact ih _ _ hdone i (List.mem_append.mpr (Or.inl hfr)) j hreach
        · have hij0 : i = j0 := List.mem_singleton.mp hlast
          subst hij0
          cases hreach with
          | refl =>
              refine ⟨?_, ?_, ?_⟩ <;>
                [exact (itemCloseLoop_mono children parent fuel _ _ i).1
                    (by simp [Function.update_apply]);
                 exact (itemCloseLoop_mono children parent fuel _ _ (parent i)).2.1
                    (by simp [Function.update_apply]);
                 exact (itemCloseLoop_mono children parent fuel _ _ (parent i)).2.2
                    (by simp [Function.update_apply])]
          | step hc hr =>
              exact ih _ _ hdone _ (List.mem_append.mpr (Or.inr hc)) j hr

/-- When the trigger-close loop runs to completion, every item reachable
from the worklist has been collapsed. -/
theorem triggerCloseLoop_complete (children : Nat → List Nat) :
    ∀ (fuel : Nat) (st : MenuStore) (wl : List Nat),
      (triggerCloseLoop children fuel st wl).2 = [] →
      ∀ i ∈ wl, ∀ j, Reach children i j →
        ((triggerCloseLoop children fuel st wl).1).expanded j = false := by
  intro fuel
  induction fuel with
  | zero =>
      intro st wl hdone i hi j hreach
      exact absurd (hdone ▸ hi) (List.not_mem_nil i)
  | succ fuel ih =>
      intro st wl hdone i hi j hreach
      rcases hp : popLast wl with _ | ⟨front, j0⟩
      · rw [(popLast_eq_none wl).mp hp] at hi
        exact absurd hi (List.not_mem_nil i)
      · have hwl := popLast_decomp wl front j0 hp
        simp only [triggerCloseLoop, hp] at hdone ⊢
        rw [hwl] at hi
        rcases List.mem_append.mp hi with hfr | hlast
        · exact ih _ _ hdone i (List.mem_append.mpr (Or.inl hfr)) j hreach
        · have hij0 : i = j0 := List.mem_singleton.mp hlast
          subst hij0
          cases hreach with
          | refl =>
              exact triggerCloseLoop_mono children fuel _ _ i
                (by simp [Function.update_apply])
          | step hc hr =>
              exact ih _ _ hdone _ (List.mem_append.mpr (Or.inr hc)) j hr

/-- A concrete two-branch menubar: top items `0` and `1`, submenus
`0 → [2]`, `1 → [3]`. -/
def cexChildren : Nat → List Nat :=
  fun i => if i = 0 then [2] else if i = 1 then [3] else []

/-- Parent map of `cexChildren`. -/
def cexParent : Nat → Nat :=
  fun c => if c = 2 then 0 else if c = 3 then 1 else 0

/-- A store in which only item `1` is expanded. -/
def cexStore : MenuStore :=
  { expanded := fun i => decide (i = 1),
    openT := fun _ => false,
    closeT := fun _ => false }

/-- Counterexample to C2 as stated: in a menubar whose active item is `0`
while the sibling top item `1` is expanded, `closeAll` (the Escape
behavior) runs its cascade to completion, yet item `1` — reachable from the
root — is still expanded afterwards: only the active item's subtree is
closed. -/
theorem menu_escape_closeAll_counterexample :
    ((closeAll cexChildren cexParent MenuRoot.menubar [0, 1] (some 0) 5 false
        cexStore).2.2 = []) ∧
    ((closeAll cexChildren cexParent MenuRoot.menubar [0, 1] (some 0) 5 false
        cexStore).2.1).expanded 1 = true := by
  constructor
  · rfl
  · rfl

/-- C2 (amended): after `closeAll` runs and its cascade completes, when the
root is a menu trigger, the trigger is collapsed and every menu item
reachable from its menu has expanded state `false`, however deep; when the
root is a menubar or a standalone menu, the root's active item and every
item reachable from it have expanded state `false`, and when no active item
exists nothing changes. -/
theorem menu_escape_closeAll_amended (children : Nat → List Nat) (parent : Nat → Nat)
    (topItems : List Nat) (active : Option Nat) (fuel : Nat) (trigExp : Bool)
    (st : MenuStore) :
    ((closeAll children parent MenuRoot.trigger topItems active fuel trigExp
          st).2.2 = [] →
        (closeAll children parent MenuRoot.trigger topItems active fuel trigExp
            st).1 = false ∧
        ∀ i ∈ topItems, ∀ j, Reach children i j →
          ((closeAll children parent MenuRoot.trigger topItems active fuel trigExp
              st).2.1).expanded j = false) ∧
    (∀ root, (root = MenuRoot.menubar ∨ root = MenuRoot.menu) →
        ∀ a, active = some a →
        (closeAll children parent root topItems active fuel trigExp st).2.2 = [] →
        ∀ j, Reach children a j →
          ((closeAll children parent root topItems active fuel trigExp
              st).2.1).expanded j = false) ∧
    (∀ root, (root = MenuRoot.menubar ∨ root = MenuRoot.menu) →
        active = none →
        closeAll children parent root topItems active fuel trigExp st
          = (trigExp, (st, []))) := by
  refine ⟨?_, ?_, ?_⟩
  · intro hdone
    refine ⟨rfl, ?_⟩
    intro i hi j hreach
    exact triggerCloseLoop_complete children fuel st topItems hdone i hi j hreach
  · intro root hroot a ha hdone j hreach
    have heq : closeAll children parent root topItems active fuel trigExp st
        = (trigExp, menuItemClose children parent fuel a st) := by
      rcases hroot with h | h <;> subst h <;> simp [closeAll, ha]
    rw [heq] at hdone ⊢
    unfold menuItemClose at hdone ⊢
    cases hreach with
    | refl =>
        exact (itemCloseLoop_mono children parent fuel _ _ a).1
          (by simp [Function.update_apply])
    | step hc hr =>
        exact (itemCloseLoop_complete children parent fuel _ _ hdone _ hc j hr).1
  · intro root hroot ha
    rcases hroot with h | h <;> subst h <;> simp [closeAll, ha]

/-- Witness for the amended C2: on the concrete two-branch structure with a
trigger root, the cascade completes, the trigger collapses, and the deep
item `1` (expanded beforehand) ends up collapsed. -/
theorem menu_escape_closeAll_amended_witness :
    ((closeAll cexChildren cexParent MenuRoot.trigger [0, 1] (some 0) 9 true
        cexStore).2.2 = []) ∧
    (closeAll cexChildren cexParent MenuRoot.trigger [0, 1] (some 0) 9 true
        cexStore).1 = false ∧
    ((closeAll cexChildren cexParent MenuRoot.trigger [0, 1] (some 0) 9 true
        cexStore).2.1).expanded 1 = false := by
  have h := (menu_escape_closeAll_amended cexChildren cexParent [0, 1] (some 0) 9
    true cexStore).1 (by rfl)
  exact ⟨rfl, h.1, h.2 1 (by simp) 1 (Reach.refl 1)⟩

/-! ## Hover timers of a single menu
(`MenuPattern.onMouseOver`, `_openItem`, `_closeItem`, `_clearTimeouts`)

Browser timers are given fresh ids from `nextId`; a pending timeout is the
pair of its id and its target item. A cancelled (`clearTimeout`) timer's id
is no longer pending, so it can never fire: `canFireOpen` tests whether a
given timer id would still fire. `onMouseOverRoot` is the `onMouseOver`
path of a menu whose parent is not a menu item (the grandparent
`_clearTimeouts` branch is skipped) with the hover target resolved to a
menu item of a visible menu; `listBehavior.goto` making the hovered item
active is modelled from the spec (roving focus moves to the item). -/

/-- The hover-relevant state of one `MenuPattern`. -/
structure HoverState where
  openT : Option (Nat × Nat)
  closeT : Option (Nat × Nat)
  nextId : Nat
  active : Option Nat
  itemExpanded : Nat → Bool

/-- `MenuPattern._clearOpenTimeout`. -/
def clearOpenTimeoutH (st : HoverState) : HoverState := { st with openT := none }

/-- `MenuPattern._clearCloseTimeout`. -/
def clearCloseTimeoutH (st : HoverState) : HoverState := { st with closeT := none }

/-- `MenuPattern._clearTimeouts`. -/
def clearTimeoutsH (st : HoverState) : HoverState :=
  clearCloseTimeoutH (clearOpenTimeoutH st)

/-- `MenuPattern._closeItem(item)`: clears the open timeout, then schedules
a close timeout for the item unless one is already pending. -/
def closeItemH (a : Nat) (st : HoverState) : HoverState :=
  let st1 := clearOpenTimeoutH st
  if st1.closeT = none then
    { st1 with closeT := some (st1.nextId, a), nextId := st1.nextId + 1 }
  else st1

/-- `MenuPattern._openItem(item)`: clears the open timeout, then schedules
a fresh open timeout for the item. -/
def openItemH (it : Nat) (st : HoverState) : HoverState :=
  let st1 := clearOpenTimeoutH st
  { st1 with openT := some (st1.nextId, it), nextId := st1.nextId + 1 }

/-- Whether an open timer with the given id is still pending, i.e. whether
the browser callback under that id would still run the timeout body. -/
def canFireOpen (tid : Nat) (st : HoverState) : Bool :=
  match st.openT with
  | some p => p.1 == tid
  | none => false

/-- `MenuPattern.onMouseOver` on the hovered item `it` (parent not a menu
item): schedule the delayed close of the old active item when the hover
moved, keep an expanded hovered item open by cancelling the close timeout,
then schedule the delayed open of the hovered item and make it active. -/
def onMouseOverRoot (it : Nat) (st : HoverState) : HoverState :=
  let st1 :=
    match st.active with
    | some a => if a ≠ it then closeItemH a st else st
    | none => st
  let st2 := if st1.itemExpanded it then clearCloseTimeoutH st1 else st1
  let st3 := openItemH it st2
  { st3 with active := some it }

theorem closeItemH_fields (a : Nat) (st : HoverState) :
    (closeItemH a st).itemExpanded = st.itemExpanded ∧
    st.nextId ≤ (closeItemH a st).nextId ∧
    (closeItemH a st).openT = none := by
  by_cases h : st.closeT = none <;>
    simp [closeItemH, clearOpenTimeoutH, h, Nat.le_succ]

/-- `onMouseOver` always ends in `_openItem(item)`: the resulting open
timer targets the hovered item under a timer id at least `nextId`. -/
theorem onMouseOverRoot_openT (it : Nat) (st : HoverState) :
    ∃ n, st.nextId ≤ n ∧ (onMouseOverRoot it st).openT = some (n, it) := by
  rcases hact : st.active with _ | a
  · by_cases hexp : st.itemExpanded it = true <;>
      exact ⟨st.nextId, le_refl _,
        by simp [onMouseOverRoot, hact, hexp, openItemH, clearOpenTimeoutH,
          clearCloseTimeoutH]⟩
  · by_cases hne : a = it
    · subst hne
      by_cases hexp : st.itemExpanded a = true <;>
        exact ⟨st.nextId, le_refl _,
          by simp [onMouseOverRoot, hact, hexp, openItemH, clearOpenTimeoutH,
            clearCloseTimeoutH]⟩
    · have hf := closeItemH_fields a st
      by_cases hexp : st.itemExpanded it = true
      · refine ⟨(closeItemH a st).nextId, hf.2.1, ?_⟩
        simp [onMouseOverRoot, hact, hne, hf.1, hexp, openItemH, clearOpenTimeoutH,
          clearCloseTimeoutH]
      · refine ⟨(closeItemH a st).nextId, hf.2.1, ?_⟩
        simp [onMouseOverRoot, hact, hne, hf.1, hexp, openItemH, clearOpenTimeoutH]

/-- C4: the three overriding events cancel the pending hover timers.
Scheduling a new open timer (`_openItem`) first clears the pending one, so
its id can no longer fire; hovering a (different) item yields a state whose
open timer is a fresh one for the hovered item, any previously pending open
timer being dead; and when a submenu chain is closed, every menu in the
closed chain has both its open and its close timeout cleared. -/
theorem menu_hover_timers_cancelled (st : HoverState) (it tid tgt : Nat)
    (children : Nat → List Nat) (parent : Nat → Nat) (fuel r : Nat)
    (store : MenuStore)
    (hid : ∀ p, st.openT = some p → p.1 < st.nextId)
    (wf : ∀ i, ∀ c ∈ children i, parent c = i)
    (hdone : (menuItemClose children parent fuel r store).2 = []) :
    ((openItemH it st).openT = some (st.nextId, it) ∧
      (st.openT = some (tid, tgt) → canFireOpen tid (openItemH it st) = false)) ∧
    ((onMouseOverRoot it st).openT.map Prod.snd = some it ∧
      (st.openT = some (tid, tgt) →
        canFireOpen tid (onMouseOverRoot it st) = false)) ∧
    (∀ j, Reach children r j → ∀ c, c ∈ children j →
        (menuItemClose children parent fuel r store).1.openT j = false ∧
        (menuItemClose children parent fuel r store).1.closeT j = false) := by
  refine ⟨⟨?_, ?_⟩, ?_, ?_⟩
  · simp [openItemH, clearOpenTimeoutH]
  · intro h
    have hlt := hid _ h
    simp only [openItemH, clearOpenTimeoutH, canFireOpen]
    simp only [Nat.beq_eq_true_eq] at *
    simp only [beq_eq_false_iff_ne, ne_eq]
    omega
  · constructor
    · obtain ⟨n, _, hn⟩ := onMouseOverRoot_openT it st
      simp [hn]
    · intro h
      have hlt := hid _ h
      obtain ⟨n, hle, hn⟩ := onMouseOverRoot_openT it st
      simp only [canFireOpen, hn]
      have hne : n ≠ tid := by omega
      exact beq_eq_false_iff_ne.mpr hne
  · intro j hreach c hc
    have hpc : parent c = j := wf j c hc
    unfold menuItemClose at hdone ⊢
    cases hreach with
    | refl =>
        have h := itemCloseLoop_complete children parent fuel _ _ hdone c hc c
          (Reach.refl c)
        rw [hpc] at h
        exact ⟨h.2.1, h.2.2⟩
    | step hc0 hr =>
        have hrc : Reach children _ c := Reach.snoc hr hc
        have h := itemCloseLoop_complete children parent fuel _ _ hdone _
          (by exact hc0) c hrc
        rw [hpc] at h
        exact ⟨h.2.1, h.2.2⟩

/-- Witness for C4: from a state with a pending open timer (id 0) for item
5, hovering item 6 leaves an open timer targeting 6 while timer 0 can no
longer fire; and the concrete close cascade from item `0` clears the
timers of the chain menu `0`. -/
theorem menu_hover_timers_cancelled_witness :
    (canFireOpen 0
        (onMouseOverRoot 6
          { openT := some (0, 5), closeT := none, nextId := 1,
            active := some 5, itemExpanded := fun _ => false }) = false) ∧
    ((menuItemClose cexChildren cexParent 9 0 cexStore).1.openT 0 = false ∧
      (menuItemClose cexChildren cexParent 9 0 cexStore).1.closeT 0 = false) := by
  have h := menu_hover_timers_cancelled
    { openT := some (0, 5), closeT := none, nextId := 1,
      active := some 5, itemExpanded := fun _ => false }
    6 0 5 cexChildren cexParent 9 0 cexStore
    (by intro p hp; simp only [Option.some.injEq] at hp; rw [← hp]; decide)
    (by intro i c hc; revert hc; simp [cexChildren, cexParent]; split_ifs <;>
      simp_all [cexParent])
    (by rfl)
  refine ⟨h.2.1.2 rfl, ?_⟩
  exact h.2.2 0 (Reach.refl 0) 2 (by simp [cexChildren])

/-! ## Enter on a menu (`MenuPattern.keydownManager`, `trigger`, `submit`,
`MenuItemPattern.open`)

The key-to-behavior binding list of `keydownManager` is in the sources; the
`KeyboardEventManager` dispatch itself is not, so the bindings are resolved
here in registration order (all bound keys are distinct, and printable
typeahead characters are outside the `Key` alphabet). `submenu.first()`
goes through the absent `listBehavior.first`; following the spec, focusing
the submenu's first item is modelled as making its first item active.
`submit`'s per-root ancestor closing is the cascade modelled above; here
the `submitted` field records the item the submit branch acted on. -/

/-- The per-key behaviors a menu dispatches to. -/
inductive MenuAction where
  | next
  | prev
  | first
  | last
  | trigger
  | closeAll
  | expand
  | collapse
  deriving DecidableEq, Repr

/-- `MenuPattern.keydownManager`: ArrowDown/ArrowUp/Home/End navigate,
Enter triggers, Escape closes all, the direction-dependent keys
expand/collapse, and Space (unless typeahead is in progress) triggers. -/
def menuKeyAction (d : TextDir) (isTyping : Bool) (k : Key) : Option MenuAction :=
  if k = Key.arrowDown then some MenuAction.next
  else if k = Key.arrowUp then some MenuAction.prev
  else if k = Key.home then some MenuAction.first
  else if k = Key.endKey then some MenuAction.last
  else if k = Key.enter then some MenuAction.trigger
  else if k = Key.escape then some MenuAction.closeAll
  else if k = menuExpandKey d then some MenuAction.expand
  else if k = menuCollapseKey d then some MenuAction.collapse
  else if k = Key.space ∧ isTyping = false then some MenuAction.trigger
  else none

/-- The state of the menu receiving Enter: its active item, the `_expanded`
flag of each item, the active item of each item's submenu, and the item the
submit branch acted on (if any). -/
structure TriggerMenuState where
  active : Option Nat
  expanded : Nat → Bool
  subActive : Nat → Option Nat
  submitted : Option Nat

/-- `MenuItemPattern.open({first: true})` on item `i`: a no-op when the
item is disabled; otherwise sets `_expanded` and focuses the first item of
its submenu. -/
def menuItemOpenFirst (disabled : Nat → Bool) (subItems : Nat → List Nat)
    (i : Nat) (st : TriggerMenuState) : TriggerMenuState :=
  if disabled i then st
  else
    { st with
      expanded := Function.update st.expanded i true,
      subActive := Function.update st.subActive i (subItems i).head? }

/-- `MenuPattern.submit(item = activeItem)`: acts only on an existing,
enabled item without submenu (each of the three root branches is guarded by
`!item.submenu()`); the ancestor closing it performs is the close cascade,
recorded here as `submitted`. -/
def menuSubmit (hasSub disabled : Nat → Bool) (item : Option Nat)
    (st : TriggerMenuState) : TriggerMenuState :=
  match item with
  | none => st
  | some i =>
      if disabled i then st
      else if hasSub i then st
      else { st with submitted := some i }

/-- `MenuPattern.trigger`: `activeItem?.hasPopup() ? activeItem?.open({first:
true}) : submit()` (with no active item the condition is falsy and `submit`
is a no-op). -/
def menuTrigger (hasSub disabled : Nat → Bool) (subItems : Nat → List Nat)
    (st : TriggerMenuState) : TriggerMenuState :=
  match st.active with
  | none => menuSubmit hasSub disabled none st
  | some i =>
      if hasSub i then menuItemOpenFirst disabled subItems i st
      else menuSubmit hasSub disabled (some i) st

/-- C1: Enter dispatches to the trigger behavior; whenever an active item
exists, trigger opens the active item's submenu — focusing its first item —
exactly when the item has a popup, and otherwise runs submit on the active
item (which, for an enabled item, submits it); the two outcomes are
mutually exclusive. -/
theorem menu_enter_trigger_dispatch (hasSub disabled : Nat → Bool)
    (subItems : Nat → List Nat) (st : TriggerMenuState) (d : TextDir)
    (isTyping : Bool) (i : Nat) (hactive : st.active = some i) :
    menuKeyAction d isTyping Key.enter = some MenuAction.trigger ∧
    (hasSub i = true →
        menuTrigger hasSub disabled subItems st
          = menuItemOpenFirst disabled subItems i st ∧
        (menuTrigger hasSub disabled subItems st).submitted = st.submitted ∧
        (disabled i = false →
          (menuTrigger hasSub disabled subItems st).expanded i = true ∧
          (menuTrigger hasSub disabled subItems st).subActive i
            = (subItems i).head?)) ∧
    (hasSub i = false →
        menuTrigger hasSub disabled subItems st
          = menuSubmit hasSub disabled (some i) st ∧
        (∀ j, (menuTrigger hasSub disabled subItems st).expanded j
            = st.expanded j) ∧
        (disabled i = false →
          (menuTrigger hasSub disabled subItems st).submitted = some i)) ∧
    ¬(hasSub i = true ∧ hasSub i = false) := by
  refine ⟨by simp [menuKeyAction], ?_, ?_, ?_⟩
  · intro hsub
    refine ⟨by simp [menuTrigger, hactive, hsub], ?_, ?_⟩
    · by_cases hd : disabled i = true <;>
        simp [menuTrigger, hactive, hsub, menuItemOpenFirst, hd]
    · intro hd
      constructor <;>
        simp [menuTrigger, hactive, hsub, menuItemOpenFirst, hd,
          Function.update_apply]
  · intro hsub
    refine ⟨by simp [menuTrigger, hactive, hsub], ?_, ?_⟩
    · intro j
      by_cases hd : disabled i = true <;>
        simp [menuTrigger, hactive, hsub, menuSubmit, hd]
    · intro hd
      simp [menuTrigger, hactive, hsub, menuSubmit, hd]
  · rintro ⟨h1, h2⟩
    rw [h1] at h2
    exact Bool.true_eq_false.mp h2

/-- Witness for C1: in a two-item menu whose active enabled item `0` has a
submenu `[10, 11]`, Enter expands item `0` and focuses submenu item `10`;
with the active item `1` lacking a submenu, Enter submits it. -/
theorem menu_enter_trigger_dispatch_witness :
    (menuTrigger (fun k => decide (k = 0)) (fun _ => false) (fun _ => [10, 11])
        { active := some 0, expanded := fun _ => false,
          subActive := fun _ => none, submitted := none }).expanded 0 = true ∧
    (menuTrigger (fun k => decide (k = 0)) (fun _ => false) (fun _ => [10, 11])
        { active := some 0, expanded := fun _ => false,
          subActive := fun _ => none, submitted := none }).subActive 0 = some 10 ∧
    (menuTrigger (fun k => decide (k = 0)) (fun _ => false) (fun _ => [10, 11])
        { active := some 1, expanded := fun _ => false,
          subActive := fun _ => none, submitted := none }).submitted = some 1 := by
  have h0 := menu_enter_trigger_dispatch (fun k => decide (k = 0)) (fun _ => false)
    (fun _ => [10, 11])
    { active := some 0, expanded := fun _ => false,
      subActive := fun _ => none, submitted := none }
    TextDir.ltr false 0 rfl
  have h1 := menu_enter_trigger_dispatch (fun k => decide (k = 0)) (fun _ => false)
    (fun _ => [10, 11])
    { active := some 1, expanded := fun _ => false,
      subActive := fun _ => none, submitted := none }
    TextDir.ltr false 1 rfl
  refine ⟨?_, ?_, ?_⟩
  · exact ((h0.2.1 (by decide)).2.2 rfl).1
  · exact ((h0.2.1 (by decide)).2.2 rfl).2
  · exact (h1.2.2.1 (by decide)).2.2 rfl

/-! ## Roving tabindex (`MenuItemPattern.tabIndex`, `TabPattern.tabIndex`,
`TreeItemPattern.tabIndex`) -/

/-- Modelled from the spec: `ListFocus.getItemTabindex` (in the absent
`behaviors/` directory) implements the roving-tabindex technique — "only
one item in a widget is tab-focusable at a time": the widget's active item
gets tab index 0, every other item -1. -/
def getItemTabindex (active : Option Nat) (i : Nat) : Int :=
  if active = some i then 0 else -1

/-- `MenuItemPattern.tabIndex`: -1 when the item's submenu holds an active
item, otherwise the parent list's roving tab index (`?? -1` — an absent
parent also yields -1, folded into `parentActive = none` here). -/
def menuItemTabIndex (parentActive : Option Nat) (hasSub : Bool)
    (subActive : Option Nat) (i : Nat) : Int :=
  if hasSub = true ∧ subActive ≠ none then -1
  else getItemTabindex parentActive i

/-- `TabPattern.tabIndex`: `tablist.focusBehavior.getItemTabIndex(this)`. -/
def tabTabIndex (active : Option Nat) (i : Nat) : Int := getItemTabindex active i

/-- `TreeItemPattern.tabIndex`: `tree.listBehavior.getItemTabindex(this)`. -/
def treeItemTabIndex (active : Option Nat) (i : Nat) : Int :=
  getItemTabindex active i

theorem getItemTabindex_eq_zero (active : Option Nat) (i : Nat) :
    getItemTabindex active i = 0 ↔ active = some i := by
  unfold getItemTabindex
  split
  · simp [*]
  · constructor
    · intro h; exact absurd h (by decide)
    · intro h; simp_all

/-- C7: roving tabindex is an invariant of every widget: whatever the
active item is, each item's tab index is 0 or -1, two distinct items of a
menu, a tablist or a tree never both report 0, and a menu item whose open
submenu contains an active item always reports -1. -/
theorem roving_tabindex_at_most_one (parentActive active : Option Nat)
    (hasSub : Nat → Bool) (subActive : Nat → Option Nat) (i j : Nat)
    (hij : i ≠ j) :
    (∀ k, menuItemTabIndex parentActive (hasSub k) (subActive k) k = 0 ∨
        menuItemTabIndex parentActive (hasSub k) (subActive k) k = -1) ∧
    ¬(menuItemTabIndex parentActive (hasSub i) (subActive i) i = 0 ∧
        menuItemTabIndex parentActive (hasSub j) (subActive j) j = 0) ∧
    (∀ k, hasSub k = true → subActive k ≠ none →
        menuItemTabIndex parentActive (hasSub k) (subActive k) k = -1) ∧
    (∀ k, tabTabIndex active k = 0 ∨ tabTabIndex active k = -1) ∧
    ¬(tabTabIndex active i = 0 ∧ tabTabIndex active j = 0) ∧
    (∀ k, treeItemTabIndex active k = 0 ∨ treeItemTabIndex active k = -1) ∧
    ¬(treeItemTabIndex active i = 0 ∧ treeItemTabIndex active j = 0) := by
  have hzero : ∀ (act : Option Nat) (a b : Nat), a ≠ b →
      ¬(getItemTabindex act a = 0 ∧ getItemTabindex act b = 0) := by
    rintro act a b hab ⟨ha, hb⟩
    rw [getItemTabindex_eq_zero] at ha hb
    rw [ha] at hb
    exact hab (Option.some.inj hb)
  have hmenu0 : ∀ k, menuItemTabIndex parentActive (hasSub k) (subActive k) k = 0 →
      getItemTabindex parentActive k = 0 := by
    intro k h
    unfold menuItemTabIndex at h
    split at h
    · exact absurd h (by decide)
    · exact h
  refine ⟨?_, ?_, ?_, ?_, ?_, ?_, ?_⟩
  · intro k
    unfold menuItemTabIndex getItemTabindex
    split
    · right; rfl
    · split
      · left; rfl
      · right; rfl
  · rintro ⟨hi, hj⟩
    exact hzero parentActive i j hij ⟨hmenu0 i hi, hmenu0 j hj⟩
  · intro k hs ha
    simp [menuItemTabIndex, hs, ha]
  · intro k
    unfold tabTabIndex getItemTabindex
    split
    · left; rfl
    · right; rfl
  · exact hzero active i j hij
  · intro k
    unfold treeItemTabIndex getItemTabindex
    split
    · left; rfl
    · right; rfl
  · exact hzero active i j hij

/-- Witness for C7: with item 0 active in the parent menu but its submenu
holding an active item, item 0 reports -1 (no item of the menu reports 0),
and distinct tabs 0 and 1 of a tablist with tab 0 active report 0 and -1. -/
theorem roving_tabindex_at_most_one_witness :
    menuItemTabIndex (some 0) true (some 5) 0 = -1 ∧
    tabTabIndex (some 0) 0 = 0 ∧
    tabTabIndex (some 0) 1 = -1 ∧
    ¬(tabTabIndex (some 0) 0 = 0 ∧ tabTabIndex (some 0) 1 = 0) := by
  have h := roving_tabindex_at_most_one (some 0) (some 0)
    (fun _ => true) (fun _ => some 5) 0 1 (by decide)
  refine ⟨?_, by decide, by decide, ?_⟩
  · exact h.2.2.1 0 rfl (by simp)
  · exact h.2.2.2.2.1

end Components
